import Mathlib

/-
Shallow embedding of the AirWatch inference core (src/ml_handler.py and the
validation part of src/routes/api.py), together with theorems checking the
natural-language specification against it.  Python machine floats are
modelled by exact rationals plus an explicit NaN value; Python dynamic
values by a small inductive type; side effects (filesystem, network
download, pickle deserialization) by explicit state passing over abstract
outcome types.
-/

namespace AirWatch

/-- A Python float value: either NaN or a finite rational. -/
inductive PyFloat
  | nan
  | fin (q : ℚ)
deriving DecidableEq, Repr

/-- A dynamic Python value as it can appear in a pollutant reading:
a number, a string that float() parses (possibly to NaN, e.g. "nan"),
a value on which float() raises ValueError/TypeError (non-numeric string,
list, ...), or None. -/
inductive PyValue
  | num (x : PyFloat)
  | numStr (x : PyFloat)
  | badStr (s : String)
  | null
deriving DecidableEq, Repr

/-- The result of Python float(v) on a present value: some x when the
conversion succeeds, none when it raises ValueError or TypeError. -/
def pyParse : PyValue → Option PyFloat
  | .num x => some x
  | .numStr x => some x
  | .badStr _ => none
  | .null => none

/-- float(v) on an optional value: a missing value behaves like None
(TypeError). -/
def pyParseOpt (v : Option PyValue) : Option PyFloat :=
  v.bind pyParse

/-- A Python dict with string keys, as an association list (Python dicts
have unique keys; lookup takes the first match). -/
def PyDict := List (String × PyValue)

/-- dict.get(k): the value at key k, or none when absent. -/
def dictGet (d : PyDict) (k : String) : Option PyValue :=
  (d.find? (fun p => p.1 = k)).map (fun p => p.2)

/-- Round a rational to the nearest integer, ties to even, as Python round
does on exact values. -/
def roundHalfEven (q : ℚ) : ℤ :=
  let f := ⌊q⌋
  let r := q - (f : ℚ)
  if r < 1/2 then f
  else if 1/2 < r then f + 1
  else if f % 2 = 0 then f else f + 1

/-- Python round(q, n) on an exact rational. -/
def pyRound (n : ℕ) (q : ℚ) : ℚ :=
  (roundHalfEven (q * (10 : ℚ) ^ n) : ℚ) / (10 : ℚ) ^ n

/-- Python round(x, n) on a float: NaN rounds to NaN. -/
def pyRoundF (n : ℕ) : PyFloat → PyFloat
  | .nan => .nan
  | .fin q => .fin (pyRound n q)

/-- Branch chain of get_pm25_subindex on a finite parsed value.  The final
Python `else: return 0` is unreachable for a finite value since the elif
conditions are exhaustive. -/
def pm25Chain (x : ℚ) : ℚ :=
  if x ≤ 30 then x * 50 / 30
  else if x ≤ 60 then 50 + (x - 30) * 50 / 30
  else if x ≤ 90 then 100 + (x - 60) * 100 / 30
  else if x ≤ 120 then 200 + (x - 90) * 100 / 30
  else if x ≤ 250 then 300 + (x - 120) * 100 / 130
  else 400 + (x - 250) * 100 / 130

/-- get_pm25_subindex: parse failure returns 0; a NaN value falls through
every comparison to the final `else: return 0`. -/
def get_pm25_subindex (v : Option PyValue) : ℚ :=
  match pyParseOpt v with
  | none => 0
  | some .nan => 0
  | some (.fin x) => pm25Chain x

/-- Branch chain of get_pm10_subindex on a finite parsed value. -/
def pm10Chain (x : ℚ) : ℚ :=
  if x ≤ 50 then x
  else if x ≤ 100 then x
  else if x ≤ 250 then 100 + (x - 100) * 100 / 150
  else if x ≤ 350 then 200 + (x - 250)
  else if x ≤ 430 then 300 + (x - 350) * 100 / 80
  else 400 + (x - 430) * 100 / 80

/-- get_pm10_subindex. -/
def get_pm10_subindex (v : Option PyValue) : ℚ :=
  match pyParseOpt v with
  | none => 0
  | some .nan => 0
  | some (.fin x) => pm10Chain x

/-- Branch chain of get_so2_subindex on a finite parsed value. -/
def so2Chain (x : ℚ) : ℚ :=
  if x ≤ 40 then x * 50 / 40
  else if x ≤ 80 then 50 + (x - 40) * 50 / 40
  else if x ≤ 380 then 100 + (x - 80) * 100 / 300
  else if x ≤ 800 then 200 + (x - 380) * 100 / 420
  else if x ≤ 1600 then 300 + (x - 800) * 100 / 800
  else 400 + (x - 1600) * 100 / 800

/-- get_so2_subindex. -/
def get_so2_subindex (v : Option PyValue) : ℚ :=
  match pyParseOpt v with
  | none => 0
  | some .nan => 0
  | some (.fin x) => so2Chain x

/-- Branch chain of get_nox_subindex on a finite parsed value. -/
def noxChain (x : ℚ) : ℚ :=
  if x ≤ 40 then x * 50 / 40
  else if x ≤ 80 then 50 + (x - 40) * 50 / 40
  else if x ≤ 180 then 100 + (x - 80) * 100 / 100
  else if x ≤ 280 then 200 + (x - 180) * 100 / 100
  else if x ≤ 400 then 300 + (x - 280) * 100 / 120
  else 400 + (x - 400) * 100 / 120

/-- get_nox_subindex. -/
def get_nox_subindex (v : Option PyValue) : ℚ :=
  match pyParseOpt v with
  | none => 0
  | some .nan => 0
  | some (.fin x) => noxChain x

/-- Branch chain of get_nh3_subindex on a finite parsed value. -/
def nh3Chain (x : ℚ) : ℚ :=
  if x ≤ 200 then x * 50 / 200
  else if x ≤ 400 then 50 + (x - 200) * 50 / 200
  else if x ≤ 800 then 100 + (x - 400) * 100 / 400
  else if x ≤ 1200 then 200 + (x - 800) * 100 / 400
  else if x ≤ 1800 then 300 + (x - 1200) * 100 / 600
  else 400 + (x - 1800) * 100 / 600

/-- get_nh3_subindex. -/
def get_nh3_subindex (v : Option PyValue) : ℚ :=
  match pyParseOpt v with
  | none => 0
  | some .nan => 0
  | some (.fin x) => nh3Chain x

/-- Branch chain of get_co_subindex on the mg-converted value x_mg. -/
def coChain (x : ℚ) : ℚ :=
  if x ≤ 1 then x * 50 / 1
  else if x ≤ 2 then 50 + (x - 1) * 50 / 1
  else if x ≤ 10 then 100 + (x - 2) * 100 / 8
  else if x ≤ 17 then 200 + (x - 10) * 100 / 7
  else if x ≤ 34 then 300 + (x - 17) * 100 / 17
  else 400 + (x - 34) * 100 / 17

/-- get_co_subindex: converts to mg by dividing by 1000; NaN/1000 is NaN
and falls to the final else. -/
def get_co_subindex (v : Option PyValue) : ℚ :=
  match pyParseOpt v with
  | none => 0
  | some .nan => 0
  | some (.fin x) => coChain (x / 1000)

/-- Branch chain of get_o3_subindex on a finite parsed value. -/
def o3Chain (x : ℚ) : ℚ :=
  if x ≤ 50 then x * 50 / 50
  else if x ≤ 100 then 50 + (x - 50) * 50 / 50
  else if x ≤ 168 then 100 + (x - 100) * 100 / 68
  else if x ≤ 208 then 200 + (x - 168) * 100 / 40
  else if x ≤ 748 then 300 + (x - 208) * 100 / 540
  else 400 + (x - 748) * 100 / 540

/-- get_o3_subindex. -/
def get_o3_subindex (v : Option PyValue) : ℚ :=
  match pyParseOpt v with
  | none => 0
  | some .nan => 0
  | some (.fin x) => o3Chain x

/-- The seven (pollutant, computed sub-index) pairs built by
calculate_all_subindices, in insertion order, before filtering. -/
def subindexPairs (data : PyDict) : List (String × ℚ) :=
  [("PM2.5", get_pm25_subindex (dictGet data "PM2.5")),
   ("PM10", get_pm10_subindex (dictGet data "PM10")),
   ("SO2", get_so2_subindex (dictGet data "SO2")),
   ("NOx", get_nox_subindex (dictGet data "NOx")),
   ("NH3", get_nh3_subindex (dictGet data "NH3")),
   ("CO", get_co_subindex (dictGet data "CO")),
   ("O3", get_o3_subindex (dictGet data "O3"))]

/-- calculate_all_subindices: keep pairs with positive computed value
(the `v is not None` guard is vacuous since every sub-index function
returns a number) and round the kept values to 1 decimal. -/
def calculate_all_subindices (data : PyDict) : List (String × ℚ) :=
  ((subindexPairs data).filter (fun p => 0 < p.2)).map
    (fun p => (p.1, pyRound 1 p.2))

/-- Lookup of the computed (pre-filter, pre-round) sub-index for a key. -/
def computedSubindex (data : PyDict) (k : String) : Option ℚ :=
  ((subindexPairs data).find? (fun p => p.1 = k)).map (fun p => p.2)

/-- The result record of get_aqi_category. -/
structure Category where
  category : String
  description : String
  colorClass : String
  chartColor : String
deriving DecidableEq, Repr

/-- The invalid-input result of get_aqi_category. -/
def catInvalid : Category :=
  ⟨"N/A", "AQI data invalid.",
   "bg-slate-500/20 text-slate-300 border-slate-500", "#64748b"⟩

/-- The Good bucket result. -/
def catGood : Category :=
  ⟨"Good", "Minimal impact.",
   "bg-green-500/20 text-green-300 border-green-500", "#34d399"⟩

/-- The Satisfactory bucket result. -/
def catSatisfactory : Category :=
  ⟨"Satisfactory", "Minor breathing discomfort.",
   "bg-yellow-500/20 text-yellow-300 border-yellow-500", "#f59e0b"⟩

/-- The Moderate bucket result. -/
def catModerate : Category :=
  ⟨"Moderate", "Breathing discomfort to sensitive groups.",
   "bg-orange-500/20 text-orange-300 border-orange-500", "#f97316"⟩

/-- The Poor bucket result. -/
def catPoor : Category :=
  ⟨"Poor", "Breathing discomfort to most people.",
   "bg-red-500/20 text-red-300 border-red-500", "#ef4444"⟩

/-- The Very Poor bucket result. -/
def catVeryPoor : Category :=
  ⟨"Very Poor", "Respiratory illness on prolonged exposure.",
   "bg-purple-500/20 text-purple-300 border-purple-500", "#a855f7"⟩

/-- The Severe bucket result. -/
def catSevere : Category :=
  ⟨"Severe", "Serious health effects.",
   "bg-rose-800/20 text-rose-400 border-rose-700", "#be123c"⟩

/-- Branch chain of get_aqi_category on a finite parsed value. -/
def categoryChain (x : ℚ) : Category :=
  if x ≤ 50 then catGood
  else if x ≤ 100 then catSatisfactory
  else if x ≤ 200 then catModerate
  else if x ≤ 300 then catPoor
  else if x ≤ 400 then catVeryPoor
  else catSevere

/-- get_aqi_category: a value float() rejects gives the invalid record; a
NaN fails every comparison and falls to the final else (Severe). -/
def get_aqi_category (v : Option PyValue) : Category :=
  match pyParseOpt v with
  | none => catInvalid
  | some .nan => catSevere
  | some (.fin x) => categoryChain x

/-- The default feature order (module constant MODEL_FEATURES). -/
def MODEL_FEATURES : List String :=
  ["PM2.5", "PM10", "NO", "NO2", "NOx", "NH3", "CO", "SO2", "O3",
   "Benzene", "Toluene", "Xylene"]

/-- A loaded predictor capability: predict on an ordered vector; none
models an exception raised by the call (or by float() on its output). -/
structure Predictor where
  predict : List PyFloat → Option PyFloat

/-- A loaded imputer capability: transform on an ordered vector; none
models an exception raised by the call. -/
structure Imputer where
  transform : List PyFloat → Option (List PyFloat)

/-- The module globals consumed by predict_current_aqi. -/
structure MLState where
  model : Option Predictor
  imputer : Option Imputer
  features : Option (List String)

/-- The collection loop of predict_current_aqi over AQI_MODEL_FEATURES:
returns (missing_features, invalid_features, input_values), each in
feature order, without short-circuiting. -/
def scanFeatures (feats : List String) (data : PyDict) :
    List String × List String × List (String × PyFloat) :=
  match feats with
  | [] => ([], [], [])
  | f :: rest =>
    let r := scanFeatures rest data
    match dictGet data f with
    | none => (f :: r.1, r.2.1, r.2.2)
    | some v =>
      match pyParse v with
      | none => (r.1, f :: r.2.1, r.2.2)
      | some x => (r.1, r.2.1, (f, x) :: r.2.2)

/-- The ordered feature vector of the input DataFrame: one column per
feature name, in order; a name absent from input_values would become NaN
(pandas behaviour), though under the no-missing guard every name is
present. -/
def featureVector (feats : List String) (vals : List (String × PyFloat)) :
    List PyFloat :=
  feats.map (fun f =>
    match vals.find? (fun p => p.1 = f) with
    | some p => p.2
    | none => .nan)

/-- predict_current_aqi: model truthiness check, feature scan with full
collection of missing and invalid names, imputation or NaN hard-failure,
prediction, and rounding of the single output to 2 decimals.  none models
returning None. -/
def predict_current_aqi (st : MLState) (data : PyDict) : Option PyFloat :=
  match st.model with
  | none => none
  | some m =>
    let feats := st.features.getD MODEL_FEATURES
    let scan := scanFeatures feats data
    if scan.1 ≠ [] then none
    else if scan.2.1 ≠ [] then none
    else
      let vec := featureVector feats scan.2.2
      match st.imputer with
      | some imp =>
        match imp.transform vec with
        | none => none
        | some vec2 => (m.predict vec2).map (pyRoundF 2)
      | none =>
        if vec.contains .nan then none
        else (m.predict vec).map (pyRoundF 2)

/-- The required_keys list of handle_predict_aqi in routes/api.py. -/
def required_keys : List String :=
  ["PM2.5", "PM10", "NO", "NO2", "NOx", "NH3", "CO", "SO2", "O3",
   "Benzene", "Toluene", "Xylene"]

/-- The validation loop of handle_predict_aqi: a key absent or mapped to
None is missing; a present non-None value float() rejects is invalid;
both lists are collected in full. -/
def scanRequest (keys : List String) (data : PyDict) :
    List String × List String :=
  match keys with
  | [] => ([], [])
  | k :: rest =>
    let r := scanRequest rest data
    match dictGet data k with
    | none => (k :: r.1, r.2)
    | some .null => (k :: r.1, r.2)
    | some v =>
      match pyParse v with
      | none => (r.1, k :: r.2)
      | some _ => (r.1, r.2)

/-- Outcome of the validation phase of handle_predict_aqi. -/
inductive ReqOutcome
  | missingErr (missing : List String)
  | invalidErr (invalid : List String)
  | proceed
deriving DecidableEq, Repr

/-- The validation phase of handle_predict_aqi: report the full missing
list first, else the full invalid list, else proceed to prediction. -/
def validate_predict_request (data : PyDict) : ReqOutcome :=
  let r := scanRequest required_keys data
  if r.1 ≠ [] then .missingErr r.1
  else if r.2 ≠ [] then .invalidErr r.2
  else .proceed

/-- A file on disk: its size in bytes and whether it is a regular file
(content beyond size is irrelevant to the claims and identified by size
plus a tag). -/
structure FileInfo where
  size : ℕ
  isFile : Bool
  tag : ℕ
deriving DecidableEq, Repr

/-- A filesystem: paths mapped to files, as an association list. -/
def FS := List (String × FileInfo)

/-- Lookup a path. -/
def fsGet (fs : FS) (p : String) : Option FileInfo :=
  (fs.find? (fun e => e.1 = p)).map (fun e => e.2)

/-- Write (create or overwrite) a file at a path. -/
def fsSet (fs : FS) (p : String) (fi : FileInfo) : FS :=
  (p, fi) :: fs.filter (fun e => ¬ e.1 = p)

/-- Remove a path. -/
def fsDel (fs : FS) (p : String) : FS :=
  fs.filter (fun e => ¬ e.1 = p)

/-- Index of the last occurrence of a character in a character list. -/
def lastIdxOf (c : Char) (cs : List Char) : Option ℕ :=
  ((List.range cs.length).filter (fun i => cs.get? i = some c)).getLast?

/-- Path.with_suffix(".tmp") of pathlib: replace the suffix of the final
path component, where the suffix starts at the last dot strictly after the
start of that component (a leading dot starts no suffix); with no suffix,
append. -/
def withSuffixTmp (p : String) : String :=
  let cs := p.toList
  let nameStart :=
    match lastIdxOf (Char.ofNat 47) cs with
    | some i => i + 1
    | none => 0
  let stemEnd :=
    match ((List.range cs.length).filter
        (fun i => nameStart + 1 ≤ i ∧ cs.get? i = some (Char.ofNat 46))).getLast? with
    | some i => i
    | none => cs.length
  String.mk (cs.take stemEnd) ++ ".tmp"

/-- Outcome of one download-transport attempt: the library is not
importable, the attempt raised before any write, the attempt raised after
a partial write of the temp file, or the full body arrived. -/
inductive TransportResult
  | unavailable
  | failedClean
  | failedPartial (fi : FileInfo)
  | ok (fi : FileInfo)
deriving DecidableEq, Repr

/-- Whether a transport attempt failed. -/
def TransportResult.isFail : TransportResult → Bool
  | .unavailable => true
  | .failedClean => true
  | .failedPartial _ => true
  | .ok _ => false

/-- _download_file_requests: stream to dest.with_suffix(".tmp"), then
replace dest by the temp file on full success.  On failure the temp file
may hold a partial write; dest is not written. -/
def _download_file_requests (fs : FS) (dest : String) (r : TransportResult) :
    Bool × FS :=
  match r with
  | .unavailable => (false, fs)
  | .failedClean => (false, fs)
  | .failedPartial fi => (false, fsSet fs (withSuffixTmp dest) fi)
  | .ok fi =>
    let fs1 := fsSet fs (withSuffixTmp dest) fi
    (true, fsSet (fsDel fs1 (withSuffixTmp dest)) dest fi)

/-- _download_file_urllib: urlretrieve to the temp path, then replace;
the same state behaviour as the requests transport. -/
def _download_file_urllib (fs : FS) (dest : String) (r : TransportResult) :
    Bool × FS :=
  match r with
  | .unavailable => (false, fs)
  | .failedClean => (false, fs)
  | .failedPartial fi => (false, fsSet fs (withSuffixTmp dest) fi)
  | .ok fi =>
    let fs1 := fsSet fs (withSuffixTmp dest) fi
    (true, fsSet (fsDel fs1 (withSuffixTmp dest)) dest fi)

/-- Result of ensure_model_file, with an explicit record of whether the
download path (network) was entered. -/
structure EnsureResult where
  ok : Bool
  fs : FS
  downloadAttempted : Bool

/-- ensure_model_file: if the path exists and is a regular file return
success at once with no download; otherwise try the requests transport,
then the urllib transport (directory creation is a no-op in this model). -/
def ensure_model_file (fs : FS) (path : String) (r1 r2 : TransportResult) :
    EnsureResult :=
  match fsGet fs path with
  | some fi =>
    if fi.isFile then ⟨true, fs, false⟩
    else
      let d1 := _download_file_requests fs path r1
      if d1.1 then ⟨true, d1.2, true⟩
      else
        let d2 := _download_file_urllib d1.2 path r2
        if d2.1 then ⟨true, d2.2, true⟩
        else ⟨false, d2.2, true⟩
  | none =>
    let d1 := _download_file_requests fs path r1
    if d1.1 then ⟨true, d1.2, true⟩
    else
      let d2 := _download_file_urllib d1.2 path r2
      if d2.1 then ⟨true, d2.2, true⟩
      else ⟨false, d2.2, true⟩

/-- A value stored in a pickled package dict: an opaque object (model or
imputer), a list of strings (a feature order), or Python None. -/
inductive PkgVal
  | obj (id : ℕ)
  | strList (l : List String)
  | null
deriving DecidableEq, Repr

/-- A deserialized pickle: a dict package or a bare (plain) object. -/
inductive Pkg
  | pdict (entries : List (String × PkgVal))
  | plain (id : ℕ)
deriving DecidableEq, Repr

/-- dict lookup on package entries. -/
def pdictGet (es : List (String × PkgVal)) (k : String) : Option PkgVal :=
  (es.find? (fun e => e.1 = k)).map (fun e => e.2)

/-- pkg.get(k) with no default: absent and stored-None both give Python
None, modelled as none. -/
def getOrNone (es : List (String × PkgVal)) (k : String) : Option PkgVal :=
  match pdictGet es k with
  | some .null => none
  | some v => some v
  | none => none

/-- The module globals written by load_model. -/
structure MLLoadState where
  model : Option PkgVal
  imputer : Option PkgVal
  features : PkgVal
deriving DecidableEq, Repr

/-- The state load_model leaves on every failure path. -/
def failState : MLLoadState :=
  ⟨none, none, .strList MODEL_FEATURES⟩

/-- The interpretation of a successfully deserialized package (lines
139-152 of ml_handler.py): a dict package yields pkg.get("model"),
pkg.get("imputer"), and pkg.get("features", MODEL_FEATURES) with the
trailing is-None fixup; a plain object is wrapped with no imputer and the
default feature order. -/
def interpretPkg : Pkg → MLLoadState
  | .pdict es =>
    let feats0 :=
      match pdictGet es "features" with
      | none => PkgVal.strList MODEL_FEATURES
      | some v => v
    let feats :=
      match feats0 with
      | .null => PkgVal.strList MODEL_FEATURES
      | v => v
    ⟨getOrNone es "model", getOrNone es "imputer", feats⟩
  | .plain id => ⟨some (.obj id), none, .strList MODEL_FEATURES⟩

/-- The outcome of open(path) followed by pickle.load: a package, a
FileNotFoundError, or any other exception. -/
inductive ReadResult
  | ok (pkg : Pkg)
  | fileNotFound
  | otherError
deriving DecidableEq, Repr

/-- load_model: if the path does not exist, attempt the download chain and
on failure set the failure state; otherwise (or after a successful
download) interpret the open+pickle outcome, mapping FileNotFoundError and
every other exception to the failure state.  The function is total: every
exception of the source is an explicit outcome here. -/
def load_model (fs : FS) (path : String) (r1 r2 : TransportResult)
    (read : ReadResult) : MLLoadState :=
  if (fsGet fs path).isSome then
    match read with
    | .ok pkg => interpretPkg pkg
    | .fileNotFound => failState
    | .otherError => failState
  else
    let e := ensure_model_file fs path r1 r2
    if e.ok then
      match read with
      | .ok pkg => interpretPkg pkg
      | .fileNotFound => failState
      | .otherError => failState
    else failState

/-- C1 counterexample: the claim says every negative numeric input to the
PM2.5 sub-index yields 0, but get_pm25_subindex maps -5 to -25/3, which is
not 0 (the first branch x <= 30 applies to negative values; there is no
negative-input special case). -/
theorem pm25_subindex_negative_counterexample :
    get_pm25_subindex (some (.num (.fin (-5)))) = -25/3 ∧ ((-25 : ℚ)/3) ≠ 0 := by
  constructor
  · norm_num [get_pm25_subindex, pyParseOpt, pyParse, pm25Chain]
  · norm_num

/-- C1 (amended): subindex of PM2.5 at 30 is 50 and at 60 is 100;
non-numeric input (unparseable string, None, absent value) yields 0; but a
negative numeric input q yields q * 50 / 30, a negative value, not 0. -/
theorem pm25_subindex_values :
    get_pm25_subindex (some (.num (.fin 30))) = 50 ∧
    get_pm25_subindex (some (.num (.fin 60))) = 100 ∧
    (∀ s, get_pm25_subindex (some (.badStr s)) = 0) ∧
    get_pm25_subindex (some .null) = 0 ∧
    get_pm25_subindex none = 0 ∧
    (∀ q : ℚ, q < 0 →
      get_pm25_subindex (some (.num (.fin q))) = q * 50 / 30 ∧ q * 50 / 30 < 0) := by
  refine ⟨?_, ?_, fun s => rfl, rfl, rfl, ?_⟩
  · norm_num [get_pm25_subindex, pyParseOpt, pyParse, pm25Chain]
  · norm_num [get_pm25_subindex, pyParseOpt, pyParse, pm25Chain]
  · intro q hq
    have h30 : q ≤ 30 := by linarith
    constructor
    · simp [get_pm25_subindex, pyParseOpt, pyParse, pm25Chain, if_pos h30]
    · have hrw : q * 50 / 30 = q * (50 / 30) := by ring
      rw [hrw]
      exact mul_neg_of_neg_of_pos hq (by norm_num)

/-- C1 witness: the amended negative clause applied at -5. -/
theorem pm25_subindex_values_witness :
    (-5 : ℚ) < 0 ∧ get_pm25_subindex (some (.num (.fin (-5)))) = (-5) * 50 / 30 :=
  ⟨by norm_num, (pm25_subindex_values.2.2.2.2.2 (-5) (by norm_num)).1⟩

/-- C2: get_aqi_category is total; boundaries are closed on the upper end
(at most 50 Good, at most 100 Satisfactory, at most 200 Moderate, at most
300 Poor, at most 400 Very Poor, above 400 Severe); negative values are
Good with no special case; 50 is Good, 50.01 is Satisfactory, 500 is
Severe; None, a missing value, and a non-numeric string all give the
invalid record, which is distinct from the six numeric categories; every
output is one of the seven records. -/
theorem classifier_spec :
    (∀ q : ℚ, q ≤ 50 → get_aqi_category (some (.num (.fin q))) = catGood) ∧
    (∀ q : ℚ, 50 < q → q ≤ 100 →
      get_aqi_category (some (.num (.fin q))) = catSatisfactory) ∧
    (∀ q : ℚ, 100 < q → q ≤ 200 →
      get_aqi_category (some (.num (.fin q))) = catModerate) ∧
    (∀ q : ℚ, 200 < q → q ≤ 300 →
      get_aqi_category (some (.num (.fin q))) = catPoor) ∧
    (∀ q : ℚ, 300 < q → q ≤ 400 →
      get_aqi_category (some (.num (.fin q))) = catVeryPoor) ∧
    (∀ q : ℚ, 400 < q → get_aqi_category (some (.num (.fin q))) = catSevere) ∧
    get_aqi_category (some .null) = catInvalid ∧
    get_aqi_category none = catInvalid ∧
    (∀ s, get_aqi_category (some (.badStr s)) = catInvalid) ∧
    get_aqi_category (some (.num (.fin 50))) = catGood ∧
    get_aqi_category (some (.num (.fin (50.01 : ℚ)))) = catSatisfactory ∧
    get_aqi_category (some (.num (.fin 500))) = catSevere ∧
    catInvalid ∉ [catGood, catSatisfactory, catModerate, catPoor, catVeryPoor, catSevere] ∧
    (∀ v, get_aqi_category v ∈
      [catInvalid, catGood, catSatisfactory, catModerate, catPoor, catVeryPoor, catSevere]) := by
  have hGood : ∀ q : ℚ, q ≤ 50 → get_aqi_category (some (.num (.fin q))) = catGood := by
    intro q h
    simp [get_aqi_category, pyParseOpt, pyParse, categoryChain, if_pos h]
  have hSat : ∀ q : ℚ, 50 < q → q ≤ 100 →
      get_aqi_category (some (.num (.fin q))) = catSatisfactory := by
    intro q h1 h2
    simp [get_aqi_category, pyParseOpt, pyParse, categoryChain,
      if_neg (not_le.mpr h1), if_pos h2]
  have hMod : ∀ q : ℚ, 100 < q → q ≤ 200 →
      get_aqi_category (some (.num (.fin q))) = catModerate := by
    intro q h1 h2
    simp only [get_aqi_category, pyParseOpt, Option.bind, pyParse, categoryChain]
    rw [if_neg (by linarith : ¬ q ≤ 50), if_neg (by linarith : ¬ q ≤ 100), if_pos h2]
  have hPoor : ∀ q : ℚ, 200 < q → q ≤ 300 →
      get_aqi_category (some (.num (.fin q))) = catPoor := by
    intro q h1 h2
    simp only [get_aqi_category, pyParseOpt, Option.bind, pyParse, categoryChain]
    rw [if_neg (by linarith : ¬ q ≤ 50), if_neg (by linarith : ¬ q ≤ 100),
      if_neg (by linarith : ¬ q ≤ 200), if_pos h2]
  have hVP : ∀ q : ℚ, 300 < q → q ≤ 400 →
      get_aqi_category (some (.num (.fin q))) = catVeryPoor := by
    intro q h1 h2
    simp only [get_aqi_category, pyParseOpt, Option.bind, pyParse, categoryChain]
    rw [if_neg (by linarith : ¬ q ≤ 50), if_neg (by linarith : ¬ q ≤ 100),
      if_neg (by linarith : ¬ q ≤ 200), if_neg (by linarith : ¬ q ≤ 300), if_pos h2]
  have hSev : ∀ q : ℚ, 400 < q → get_aqi_category (some (.num (.fin q))) = catSevere := by
    intro q h1
    simp only [get_aqi_category, pyParseOpt, Option.bind, pyParse, categoryChain]
    rw [if_neg (by linarith : ¬ q ≤ 50), if_neg (by linarith : ¬ q ≤ 100),
      if_neg (by linarith : ¬ q ≤ 200), if_neg (by linarith : ¬ q ≤ 300),
      if_neg (by linarith : ¬ q ≤ 400)]
  refine ⟨hGood, hSat, hMod, hPoor, hVP, hSev, rfl, rfl, fun s => rfl,
    hGood 50 le_rfl, hSat (50.01 : ℚ) (by norm_num) (by norm_num),
    hSev 500 (by norm_num), by decide, ?_⟩
  have hchain : ∀ q : ℚ, categoryChain q ∈
      [catInvalid, catGood, catSatisfactory, catModerate, catPoor, catVeryPoor, catSevere] := by
    intro q
    unfold categoryChain
    split_ifs <;> simp
  intro v
  rcases v with _ | v
  · simp [get_aqi_category, pyParseOpt]
  rcases v with x | x | s | _
  · rcases x with _ | q
    · simp [get_aqi_category, pyParseOpt, pyParse]
    · simpa [get_aqi_category, pyParseOpt, pyParse] using hchain q
  · rcases x with _ | q
    · simp [get_aqi_category, pyParseOpt, pyParse]
    · simpa [get_aqi_category, pyParseOpt, pyParse] using hchain q
  · simp [get_aqi_category, pyParseOpt, pyParse]
  · simp [get_aqi_category, pyParseOpt, pyParse]

/-- C2 witness: the Good bucket applied at the negative value -10 and the
Severe bucket at 500. -/
theorem classifier_spec_witness :
    ((-10 : ℚ) ≤ 50 ∧ get_aqi_category (some (.num (.fin (-10)))) = catGood) ∧
    ((400 : ℚ) < 500 ∧ get_aqi_category (some (.num (.fin 500))) = catSevere) :=
  ⟨⟨by norm_num, classifier_spec.1 (-10) (by norm_num)⟩,
   ⟨by norm_num, classifier_spec.2.2.2.2.2.1 500 (by norm_num)⟩⟩

/-- A concrete reading used by witnesses: only PM2.5 present, at 30. -/
def dataEx : PyDict := [("PM2.5", PyValue.num (PyFloat.fin 30))]

/-- Evaluation of calculate_all_subindices on the witness reading: only the
PM2.5 entry survives the positivity filter, with value 50. -/
theorem calc_dataEx : calculate_all_subindices dataEx = [("PM2.5", 50)] := by
  have e1 : dictGet dataEx "PM2.5" = some (PyValue.num (PyFloat.fin 30)) := rfl
  have e2 : dictGet dataEx "PM10" = none := rfl
  have e3 : dictGet dataEx "SO2" = none := rfl
  have e4 : dictGet dataEx "NOx" = none := rfl
  have e5 : dictGet dataEx "NH3" = none := rfl
  have e6 : dictGet dataEx "CO" = none := rfl
  have e7 : dictGet dataEx "O3" = none := rfl
  have c1 : get_pm25_subindex (dictGet dataEx "PM2.5") = 50 := by
    rw [e1]; norm_num [get_pm25_subindex, pyParseOpt, pyParse, pm25Chain]
  have hpairs : subindexPairs dataEx =
      [("PM2.5", 50), ("PM10", 0), ("SO2", 0), ("NOx", 0), ("NH3", 0), ("CO", 0), ("O3", 0)] := by
    unfold subindexPairs
    rw [c1, e2, e3, e4, e5, e6, e7]
    rfl
  have hround : pyRound 1 (50:ℚ) = 50 := by
    norm_num [pyRound, roundHalfEven]
  unfold calculate_all_subindices
  rw [hpairs]
  norm_num [List.filter, hround]

/-- C5: every entry of the mapping returned by calculate_all_subindices is
the 1-decimal rounding of the computed sub-index for its key, and that
computed value is strictly positive — a key whose computed sub-index is 0
or negative is never retained. -/
theorem calc_subindices_filter_round (data : PyDict) (k : String) (r : ℚ)
    (h : (k, r) ∈ calculate_all_subindices data) :
    ∃ v, computedSubindex data k = some v ∧ 0 < v ∧ r = pyRound 1 v := by
  unfold calculate_all_subindices at h
  rcases List.mem_map.mp h with ⟨p, hp, heq⟩
  rcases List.mem_filter.mp hp with ⟨hmem, hpos⟩
  have hpos2 : 0 < p.2 := by simpa using hpos
  have hk : p.1 = k := congrArg Prod.fst heq
  have hr : pyRound 1 p.2 = r := congrArg Prod.snd heq
  refine ⟨p.2, ?_, hpos2, hr.symm⟩
  rw [← hk]
  simp only [subindexPairs, List.mem_cons, List.not_mem_nil, or_false] at hmem
  rcases hmem with h1 | h1 | h1 | h1 | h1 | h1 | h1
  all_goals (subst h1; rfl)

/-- C5 witness: the theorem applied to the PM2.5 entry of the witness
reading. -/
theorem calc_subindices_filter_round_witness :
    ∃ v, computedSubindex dataEx "PM2.5" = some v ∧ 0 < v ∧ (50:ℚ) = pyRound 1 v :=
  calc_subindices_filter_round dataEx "PM2.5" 50 (by rw [calc_dataEx]; simp)

/-- C9: the keys of the mapping returned by calculate_all_subindices are
always among PM2.5, PM10, SO2, NOx, NH3, CO, O3; the pollutants NO, NO2,
Benzene, Toluene and Xylene never appear, whatever the input reading
holds. -/
theorem calc_subindices_key_universe (data : PyDict) :
    (∀ k, k ∈ (calculate_all_subindices data).map Prod.fst →
      k ∈ ["PM2.5", "PM10", "SO2", "NOx", "NH3", "CO", "O3"]) ∧
    "NO" ∉ (calculate_all_subindices data).map Prod.fst ∧
    "NO2" ∉ (calculate_all_subindices data).map Prod.fst ∧
    "Benzene" ∉ (calculate_all_subindices data).map Prod.fst ∧
    "Toluene" ∉ (calculate_all_subindices data).map Prod.fst ∧
    "Xylene" ∉ (calculate_all_subindices data).map Prod.fst := by
  have hkeys : ∀ k, k ∈ (calculate_all_subindices data).map Prod.fst →
      k ∈ ["PM2.5", "PM10", "SO2", "NOx", "NH3", "CO", "O3"] := by
    intro k hk
    rcases List.mem_map.mp hk with ⟨p, hp, heq⟩
    unfold calculate_all_subindices at hp
    rcases List.mem_map.mp hp with ⟨q, hq, heq2⟩
    rcases List.mem_filter.mp hq with ⟨hmem, _⟩
    have hqk : q.1 = k := by rw [← heq, ← heq2]
    rw [← hqk]
    simp only [subindexPairs, List.mem_cons, List.not_mem_nil, or_false] at hmem
    rcases hmem with h1 | h1 | h1 | h1 | h1 | h1 | h1
    all_goals (subst h1; simp)
  refine ⟨hkeys, ?_, ?_, ?_, ?_, ?_⟩
  all_goals intro hmem
  · have := hkeys "NO" hmem
    simp at this
  · have := hkeys "NO2" hmem
    simp at this
  · have := hkeys "Benzene" hmem
    simp at this
  · have := hkeys "Toluene" hmem
    simp at this
  · have := hkeys "Xylene" hmem
    simp at this

/-- C9 witness: on the witness reading the key universe clause is
instantiated at PM2.5 and the exclusion clause at NO. -/
theorem calc_subindices_key_universe_witness :
    "PM2.5" ∈ ["PM2.5", "PM10", "SO2", "NOx", "NH3", "CO", "O3"] ∧
    "NO" ∉ (calculate_all_subindices dataEx).map Prod.fst :=
  ⟨(calc_subindices_key_universe dataEx).1 "PM2.5" (by rw [calc_dataEx]; simp),
   (calc_subindices_key_universe dataEx).2.1⟩

/-- The scan of predict_current_aqi visits every feature: the missing and
invalid lists are exactly the filters of the feature order by the
corresponding defect, and the collected values are the parsed pairs. -/
theorem scanFeatures_eq_filters (feats : List String) (data : PyDict) :
    scanFeatures feats data =
      (feats.filter (fun f => (dictGet data f).isNone),
       feats.filter (fun f =>
         match dictGet data f with
         | some v => (pyParse v).isNone
         | none => false),
       feats.filterMap (fun f =>
         ((dictGet data f).bind pyParse).map (fun x => (f, x)))) := by
  induction feats with
  | nil => rfl
  | cons f rest ih =>
    simp only [scanFeatures, ih, List.filter, List.filterMap]
    rcases hf : dictGet data f with _ | v
    · simp [hf]
    · rcases hv : pyParse v with _ | x
      · simp [hf, hv]
      · simp [hf, hv]

/-- The validation scan of handle_predict_aqi visits every required key:
absent-or-None keys and present non-None non-numeric keys are collected as
the full filters of the key list. -/
theorem scanRequest_eq_filters (keys : List String) (data : PyDict) :
    scanRequest keys data =
      (keys.filter (fun k =>
         match dictGet data k with
         | none => true
         | some .null => true
         | some _ => false),
       keys.filter (fun k =>
         match dictGet data k with
         | some .null => false
         | some v => (pyParse v).isNone
         | none => false)) := by
  induction keys with
  | nil => rfl
  | cons k rest ih =>
    simp only [scanRequest, ih, List.filter]
    rcases hf : dictGet data k with _ | v
    · simp [hf]
    · rcases v with x | x | s | _
      · simp [hf, pyParse]
      · simp [hf, pyParse]
      · simp [hf, pyParse]
      · simp [hf]

/-- A reading holding numeric values for every required key except SO2. -/
def so2Reading : PyDict :=
  [("PM2.5", PyValue.num (PyFloat.fin 35)), ("PM10", PyValue.num (PyFloat.fin 80)),
   ("NO", PyValue.num (PyFloat.fin 0)), ("NO2", PyValue.num (PyFloat.fin 10)),
   ("NOx", PyValue.num (PyFloat.fin 12)), ("NH3", PyValue.num (PyFloat.fin 5)),
   ("CO", PyValue.num (PyFloat.fin 900)), ("O3", PyValue.num (PyFloat.fin 40)),
   ("Benzene", PyValue.num (PyFloat.fin 0)), ("Toluene", PyValue.num (PyFloat.fin 0)),
   ("Xylene", PyValue.num (PyFloat.fin 0))]

/-- C4: feature-vector construction does not short-circuit: both the model
scan and the request validation collect all missing names and all
non-numeric names over the whole feature order (they equal the respective
filters of the full list), and a reading missing only the SO2 key fails
with an error naming exactly SO2, on both layers. -/
theorem feature_validation_complete :
    (∀ feats data, scanFeatures feats data =
      (feats.filter (fun f => (dictGet data f).isNone),
       feats.filter (fun f =>
         match dictGet data f with
         | some v => (pyParse v).isNone
         | none => false),
       feats.filterMap (fun f =>
         ((dictGet data f).bind pyParse).map (fun x => (f, x))))) ∧
    (∀ keys data, scanRequest keys data =
      (keys.filter (fun k =>
         match dictGet data k with
         | none => true
         | some .null => true
         | some _ => false),
       keys.filter (fun k =>
         match dictGet data k with
         | some .null => false
         | some v => (pyParse v).isNone
         | none => false))) ∧
    validate_predict_request so2Reading = .missingErr ["SO2"] ∧
    (scanFeatures MODEL_FEATURES so2Reading).1 = ["SO2"] :=
  ⟨scanFeatures_eq_filters, scanRequest_eq_filters, rfl, rfl⟩

/-- The feature order in effect: the loaded order, else the default. -/
def featsOf (st : MLState) : List String := st.features.getD MODEL_FEATURES

/-- The feature vector predict_current_aqi builds for a reading. -/
def vecOf (st : MLState) (data : PyDict) : List PyFloat :=
  featureVector (featsOf st) (scanFeatures (featsOf st) data).2.2

/-- C3: with the model loaded and every required feature present and
numeric, predict_current_aqi applies the imputer to the feature vector and
uses its output when an imputer is present (an imputer failure fails the
call); with no imputer, a NaN in the vector is a hard failure returning
none; otherwise the result is the single predictor output rounded to 2
decimals. -/
theorem predict_imputation_policy (st : MLState) (data : PyDict) (m : Predictor)
    (hm : st.model = some m)
    (hmiss : (scanFeatures (featsOf st) data).1 = [])
    (hinv : (scanFeatures (featsOf st) data).2.1 = []) :
    (∀ imp, st.imputer = some imp →
      predict_current_aqi st data =
        (imp.transform (vecOf st data)).bind
          (fun v2 => (m.predict v2).map (pyRoundF 2))) ∧
    (st.imputer = none → (vecOf st data).contains .nan = true →
      predict_current_aqi st data = none) ∧
    (st.imputer = none → (vecOf st data).contains .nan = false →
      predict_current_aqi st data = (m.predict (vecOf st data)).map (pyRoundF 2)) := by
  have hbody : predict_current_aqi st data =
      match st.imputer with
      | some imp =>
        match imp.transform (vecOf st data) with
        | none => none
        | some vec2 => (m.predict vec2).map (pyRoundF 2)
      | none =>
        if (vecOf st data).contains .nan then none
        else (m.predict (vecOf st data)).map (pyRoundF 2) := by
    unfold predict_current_aqi
    rw [hm]
    simp only [vecOf, featsOf] at *
    simp [hmiss, hinv]
  refine ⟨?_, ?_, ?_⟩
  · intro imp himp
    rw [hbody, himp]
    rcases h2 : imp.transform (vecOf st data) with _ | v2 <;> simp [h2]
  · intro himp hnan
    rw [hbody, himp, hnan]
    simp
  · intro himp hnan
    rw [hbody, himp, hnan]
    simp

/-- A constant predictor used by the C3 witness. -/
def pW : Predictor := ⟨fun _ => some (.fin 120)⟩

/-- A loaded state with the constant predictor, no imputer, and a
one-feature order. -/
def stW : MLState := ⟨some pW, none, some ["PM2.5"]⟩

/-- C3 witness: the no-imputer, no-NaN clause applied to the witness
reading; the predictor output 120 rounds to itself. -/
theorem predict_imputation_policy_witness :
    predict_current_aqi stW dataEx = some (.fin 120) := by
  have h := (predict_imputation_policy stW dataEx pW rfl rfl rfl).2.2 rfl rfl
  rw [h]
  show some (pyRoundF 2 (.fin 120)) = some (.fin 120)
  norm_num [pyRoundF, pyRound, roundHalfEven]

/-- Removing entries under one key leaves lookup under any other key
unchanged. -/
theorem find?_key_fsDel (l : FS) (p q : String) (h : p ≠ q) :
    (fsDel l q).find? (fun e => e.1 = p) = l.find? (fun e => e.1 = p) := by
  induction l with
  | nil => rfl
  | cons e l ih =>
    by_cases heq : e.1 = q
    · have hep : ¬ e.1 = p := by rw [heq]; exact fun hqp => h hqp.symm
      have h1 : fsDel (e :: l) q = fsDel l q := by
        simp [fsDel, List.filter_cons, heq]
      rw [h1, ih, List.find?_cons_of_neg _ (by simpa using hep)]
    · have h1 : fsDel (e :: l) q = e :: fsDel l q := by
        simp [fsDel, List.filter_cons, heq]
      rw [h1]
      by_cases hp : e.1 = p
      · rw [List.find?_cons_of_pos _ (by simpa using hp),
          List.find?_cons_of_pos _ (by simpa using hp)]
      · rw [List.find?_cons_of_neg _ (by simpa using hp),
          List.find?_cons_of_neg _ (by simpa using hp), ih]

/-- Writing a file under one path leaves lookup under any other path
unchanged. -/
theorem fsGet_fsSet_ne (fs : FS) (p q : String) (fi : FileInfo) (h : p ≠ q) :
    fsGet (fsSet fs q fi) p = fsGet fs p := by
  have hqp : ¬ ((q, fi).1 = p) := fun hh => h hh.symm
  show Option.map _ (((q, fi) :: fsDel fs q).find? (fun e => e.1 = p)) = _
  rw [List.find?_cons_of_neg _ (by simpa using hqp)]
  exact congrArg (Option.map _) (find?_key_fsDel fs p q h)

/-- Writing a file makes it visible under its own path. -/
theorem fsGet_fsSet_self (fs : FS) (p : String) (fi : FileInfo) :
    fsGet (fsSet fs p fi) p = some fi := by
  show Option.map _ (((p, fi) :: fsDel fs p).find? (fun e => e.1 = p)) = _
  rw [List.find?_cons_of_pos _ (by simp)]
  rfl

/-- A filesystem holding a zero-byte regular file at the model path. -/
def fsZero : FS := [("random_forest_model.pkl", ⟨0, true, 0⟩)]

/-- C6 counterexample: the claim says ensure returns success without
network access only when the existing file also meets a minimal size
threshold, zero-byte files being rejected as corrupt; but on a filesystem
holding a zero-byte regular file at the path, ensure_model_file returns
success with no download attempted — the source checks only exists() and
is_file(), never the size. -/
theorem ensure_zero_byte_counterexample :
    ensure_model_file fsZero "random_forest_model.pkl" .unavailable .unavailable =
      ⟨true, fsZero, false⟩ ∧
    fsGet fsZero "random_forest_model.pkl" = some ⟨0, true, 0⟩ :=
  ⟨rfl, rfl⟩

/-- C6 (amended): ensure_model_file returns success without entering the
download path whenever the file at the given path exists and is a regular
file, regardless of its size; zero-byte files are accepted, not rejected. -/
theorem ensure_existing_file_no_download (fs : FS) (path : String)
    (fi : FileInfo) (r1 r2 : TransportResult)
    (hget : fsGet fs path = some fi) (hfile : fi.isFile = true) :
    ensure_model_file fs path r1 r2 = ⟨true, fs, false⟩ := by
  unfold ensure_model_file
  rw [hget]
  simp [hfile]

/-- C6 witness: the amended theorem applied to the zero-byte file. -/
theorem ensure_existing_file_no_download_witness :
    ensure_model_file fsZero "random_forest_model.pkl" .failedClean .failedClean =
      ⟨true, fsZero, false⟩ :=
  ensure_existing_file_no_download fsZero "random_forest_model.pkl"
    ⟨0, true, 0⟩ .failedClean .failedClean rfl rfl

/-- C8: when the download path is entered (no regular file at the path)
and both transports fail, ensure_model_file returns failure and lookup of
the destination path is unchanged — only the temp file, which is a
distinct path, may have been written; and on a fully successful transport
the downloaded file is renamed over the destination. -/
theorem download_failure_atomicity (fs : FS) (path : String)
    (r1 r2 : TransportResult)
    (h1 : r1.isFail = true) (h2 : r2.isFail = true)
    (htmp : withSuffixTmp path ≠ path)
    (hnotfile : ∀ fi, fsGet fs path = some fi → fi.isFile = false) :
    (ensure_model_file fs path r1 r2).ok = false ∧
    fsGet (ensure_model_file fs path r1 r2).fs path = fsGet fs path ∧
    (∀ fi, fsGet (_download_file_requests fs path (.ok fi)).2 path = some fi) := by
  have hne : path ≠ withSuffixTmp path := fun hh => htmp hh.symm
  have hdl : ∀ (g : FS) (r : TransportResult), r.isFail = true →
      (_download_file_requests g path r).1 = false ∧
      fsGet (_download_file_requests g path r).2 path = fsGet g path := by
    intro g r hr
    cases r with
    | unavailable => exact ⟨rfl, rfl⟩
    | failedClean => exact ⟨rfl, rfl⟩
    | failedPartial fi =>
      exact ⟨rfl, fsGet_fsSet_ne g path (withSuffixTmp path) fi hne⟩
    | ok fi => simp [TransportResult.isFail] at hr
  have hdl2 : ∀ (g : FS) (r : TransportResult), r.isFail = true →
      (_download_file_urllib g path r).1 = false ∧
      fsGet (_download_file_urllib g path r).2 path = fsGet g path := by
    intro g r hr
    cases r with
    | unavailable => exact ⟨rfl, rfl⟩
    | failedClean => exact ⟨rfl, rfl⟩
    | failedPartial fi =>
      exact ⟨rfl, fsGet_fsSet_ne g path (withSuffixTmp path) fi hne⟩
    | ok fi => simp [TransportResult.isFail] at hr
  have hd1 := hdl fs r1 h1
  have hd2 := hdl2 (_download_file_requests fs path r1).2 r2 h2
  refine ⟨?_, ?_, fun fi => fsGet_fsSet_self _ path fi⟩ <;>
  · unfold ensure_model_file
    rcases hg : fsGet fs path with _ | fi
    · simp only [hd1.1, hd2.1, Bool.false_eq_true, if_false]
      try rw [hd2.2, hd1.2, hg]
    · have hff : fi.isFile = false := hnotfile fi hg
      simp only [hff, hd1.1, hd2.1, Bool.false_eq_true, if_false]
      try rw [hd2.2, hd1.2, hg]

/-- C8 witness: on an empty filesystem with a partial-write failure of the
requests transport and a clean failure of the urllib transport, ensure
fails and the destination path still holds nothing. -/
theorem download_failure_atomicity_witness :
    (ensure_model_file [] "random_forest_model.pkl"
      (.failedPartial ⟨7, true, 1⟩) .failedClean).ok = false ∧
    fsGet (ensure_model_file [] "random_forest_model.pkl"
      (.failedPartial ⟨7, true, 1⟩) .failedClean).fs "random_forest_model.pkl" = none := by
  have h := download_failure_atomicity [] "random_forest_model.pkl"
    (.failedPartial ⟨7, true, 1⟩) .failedClean rfl rfl (by decide)
    (fun fi hh => by simp [fsGet, List.find?] at hh)
  exact ⟨h.1, h.2.1⟩

/-- C7 counterexample: the claim says the loader accepts any of the keys
model, estimator or pipeline as the predictor key of a dict bundle; but
interpreting a dict whose only key is estimator leaves the predictor
global None — the source consults only pkg.get with the key model. -/
theorem interpret_estimator_counterexample :
    (interpretPkg (.pdict [("estimator", .obj 7)])).model = none := rfl

/-- C7 (amended): for a dict artifact the predictor is taken from the key
model only — entries under estimator or pipeline are ignored — while a
bare predictor object is wrapped with no imputer and the default
12-pollutant feature order. -/
theorem interpret_model_key_policy :
    (∀ es, (interpretPkg (.pdict es)).model = getOrNone es "model") ∧
    (∀ id, (interpretPkg (.pdict [("model", .obj id)])).model = some (.obj id)) ∧
    (∀ id, (interpretPkg (.pdict [("estimator", .obj id)])).model = none) ∧
    (∀ id, (interpretPkg (.pdict [("pipeline", .obj id)])).model = none) ∧
    (∀ id, interpretPkg (.plain id) = ⟨some (.obj id), none, .strList MODEL_FEATURES⟩) ∧
    MODEL_FEATURES.length = 12 :=
  ⟨fun _ => rfl, fun _ => rfl, fun _ => rfl, fun _ => rfl, fun _ => rfl, rfl⟩

/-- C10: load_model is total over every modelled outcome (no exception
escapes: the result is always either the interpreted package or the
failure state), and on each failure path — path absent with the download
chain failing, FileNotFoundError at open, or any other load error — the
globals are left with no model, no imputer, and the default 12-pollutant
feature list. -/
theorem load_model_failure_resets :
    (∀ fs path r1 r2 read, fsGet fs path = none →
      (ensure_model_file fs path r1 r2).ok = false →
      load_model fs path r1 r2 read = failState) ∧
    (∀ fs path r1 r2, load_model fs path r1 r2 .fileNotFound = failState) ∧
    (∀ fs path r1 r2, load_model fs path r1 r2 .otherError = failState) ∧
    (∀ fs path r1 r2 read, load_model fs path r1 r2 read = failState ∨
      ∃ pkg, read = .ok pkg ∧ load_model fs path r1 r2 read = interpretPkg pkg) ∧
    failState.model = none ∧ failState.imputer = none ∧
    failState.features = .strList MODEL_FEATURES ∧ MODEL_FEATURES.length = 12 := by
  refine ⟨?_, ?_, ?_, ?_, rfl, rfl, rfl, rfl⟩
  · intro fs path r1 r2 read hget hens
    unfold load_model
    rw [hget]
    simp only [Option.isSome_none, Bool.false_eq_true, if_false, hens]
  · intro fs path r1 r2
    by_cases hs : (fsGet fs path).isSome
    · simp [load_model, hs]
    · by_cases hok : (ensure_model_file fs path r1 r2).ok
      · simp [load_model, hs, hok]
      · simp [load_model, hs, hok]
  · intro fs path r1 r2
    by_cases hs : (fsGet fs path).isSome
    · simp [load_model, hs]
    · by_cases hok : (ensure_model_file fs path r1 r2).ok
      · simp [load_model, hs, hok]
      · simp [load_model, hs, hok]
  · intro fs path r1 r2 read
    cases read with
    | ok pkg =>
      by_cases hs : (fsGet fs path).isSome
      · exact Or.inr ⟨pkg, rfl, by simp [load_model, hs]⟩
      · by_cases hok : (ensure_model_file fs path r1 r2).ok
        · exact Or.inr ⟨pkg, rfl, by simp [load_model, hs, hok]⟩
        · exact Or.inl (by simp [load_model, hs, hok])
    | fileNotFound =>
      refine Or.inl ?_
      by_cases hs : (fsGet fs path).isSome
      · simp [load_model, hs]
      · by_cases hok : (ensure_model_file fs path r1 r2).ok
        · simp [load_model, hs, hok]
        · simp [load_model, hs, hok]
    | otherError =>
      refine Or.inl ?_
      by_cases hs : (fsGet fs path).isSome
      · simp [load_model, hs]
      · by_cases hok : (ensure_model_file fs path r1 r2).ok
        · simp [load_model, hs, hok]
        · simp [load_model, hs, hok]

/-- C10 witness: the download-failed clause applied on an empty filesystem
with both transports unavailable. -/
theorem load_model_failure_resets_witness :
    load_model [] "p" .unavailable .unavailable (.ok (.plain 0)) = failState :=
  load_model_failure_resets.1 [] "p" .unavailable .unavailable (.ok (.plain 0)) rfl rfl

end AirWatch
